import Mathlib

/-!
Verification of the cronic job supervisor (package cron, file cron.go, and
main.go) against its natural-language specification.

Shallow embedding conventions:
* time is discrete, a Nat of abstract time units;
* the schedule engine (job.Expression.Next) is an abstract function
  next : Nat -> Nat returning the next fire time after a reference time;
* goroutine loops are given explicit fuel; every definition is executable;
* logging is modelled as emitted event values.
-/

namespace Cronic

/-! ## Overrun Monitor (monitorJob, cron.go lines 112-125)

The Go code is:

  t := t0
  for {
    t = expression.Next(t)
    select {
    case <-time.After(time.Until(t)):
      jobLogger.Warnf("not starting: job is still running since ...")
    case <-ctx.Done():
      return
    }
  }

We model the invocation-scoped cancellation (ctx, cancelled by the deferred
cancel() when the Executor call returns) by the absolute time cancelAt at
which ctx.Done() becomes ready.  The select waits until the earlier of the
next schedule point t and cancelAt; if t arrives strictly earlier the timer
case fires and a warning is emitted at time t, otherwise the Done case fires
and the loop returns.  The result is the list of times at which warnings are
emitted. -/
def monitorJob (next : Nat → Nat) (t0 cancelAt : Nat) : Nat → List Nat
  | 0 => []
  | fuel + 1 =>
    let t := next t0
    if t < cancelAt then t :: monitorJob next t cancelAt fuel
    else []

/-- Schedule points obtained by iterating the schedule engine from a
reference time: the fire times strictly after t0, in order. -/
def schedPoints (next : Nat → Nat) (t0 : Nat) : Nat → List Nat
  | 0 => []
  | fuel + 1 =>
    let t := next t0
    t :: schedPoints next t fuel

/-- Model of the anonymous function at cron.go lines 174-181:

  err := func() error {
    ctx, cancel := context.WithCancel(context.Background())
    defer cancel()
    go monitorJob(ctx, job.Expression, nextRun, jobLogger)
    return runJob(cronCtx, job.Command, jobLogger)
  }()

The deferred cancel() runs when the runJob call returns, whatever value it
returned, so the cancellation time handed to the monitor is the executor
return time startAt + dur for every outcome.  The components are the
monitor's warning times, the cancellation time, and the propagated
executor result. -/
def runWithMonitor (next : Nat → Nat) (t0 startAt dur fuel : Nat)
    (result : Except String Unit) : List Nat × Nat × Except String Unit :=
  (monitorJob next t0 (startAt + dur) fuel, startAt + dur, result)

/-! ## Subprocess environment (runJob, cron.go lines 75-79)

The Go code is:

  env := os.Environ()
  for k, v := range cronCtx.Environ {
    env = append(env, fmt.Sprintf("%s=%s", k, v))
  }
  cmd.Env = env

so the environment handed to the subprocess is the supervisor's inherited
environment followed by every override pair.  For duplicate keys in
cmd.Env the later entry is the one the subprocess observes (os/exec keeps
the last value for each duplicate key; the repository's own bats test
"it overrides the environment with the crontab" checks exactly this). -/
def mergeEnviron (osEnviron ctxEnviron : List (String × String)) :
    List (String × String) :=
  osEnviron ++ ctxEnviron

/-- Value of variable k as observed by the subprocess: the last binding of
k in the environment list wins. -/
def observedEnv (env : List (String × String)) (k : String) : Option String :=
  (env.reverse.find? fun q => q.1 == k).map Prod.snd

/-! ## Output Drain (startReaderDrain, cron.go lines 25-64)

The drain loop repeatedly calls bufReader.ReadLine().  Each successful read
yields a line (logged at info level, tagged with its channel) and an
isPrefix flag (when set, a warning that the line exceeded the buffer is
logged and reading continues).  On a read error the loop classifies it:

  if strings.Contains(err.Error(), os.ErrClosed.Error()) - not logged;
  else if err == io.EOF - not logged;
  else readerLogger.Errorf("failed to read pipe: %v", err);

and then breaks in every case.  The deferred handler closes the reader and
calls wg.Done() unconditionally.

A stream is modelled as the list of successful reads (line text plus the
continued/isPrefix flag) followed by the terminal read error. -/

/-- Log records emitted by a drain. -/
inductive DrainLog where
  | line (channel msg : String)
  | longLineWarning (channel : String)
  | readError (channel msg : String)
  deriving DecidableEq, Repr

/-- Model of a Go error value: its message string, and whether it is the
end-of-input sentinel (the Go code compares err == io.EOF by identity). -/
structure GoError where
  msg : String
  isEOFSentinel : Bool
  deriving DecidableEq, Repr

/-- Message of os.ErrClosed, tested for by substring containment. -/
def osErrClosedMsg : String := "file already closed"

/-- Substring occurrence on character lists: the needle occurs at some
position of the haystack. -/
def containsSub (hay needle : List Char) : Bool :=
  needle.isPrefixOf hay ||
    match hay with
    | [] => false
    | _ :: t => containsSub t needle

/-- Containment test modelling strings.Contains. -/
def strContains (hay needle : String) : Bool :=
  containsSub hay.data needle.data

/-- Drain of one stream: the log records produced by the read loop of
startReaderDrain, reading the given successful lines and then hitting the
terminal read error. -/
def startReaderDrain (channel : String) :
    List (String × Bool) → GoError → List DrainLog
  | [], term =>
    if strContains term.msg osErrClosedMsg then []
    else if term.isEOFSentinel then []
    else [.readError channel term.msg]
  | (l, continued) :: rest, term =>
    .line channel l ::
      ((if continued then [DrainLog.longLineWarning channel] else []) ++
        startReaderDrain channel rest term)

/-- Predicate picking out unexpected-read-error records. -/
def DrainLog.isReadError : DrainLog → Bool
  | .readError _ _ => true
  | _ => false

/-! ## Job Executor (runJob, cron.go lines 66-110)

runJob builds shell -c command in its own process group, merges the
environment (see mergeEnviron above), obtains the stdout and stderr pipes,
starts the process, starts one reader drain per pipe, blocks on
wg.Wait() until both drains are done, and only then calls cmd.Wait().
Obtaining either pipe or starting the command returns the error directly;
a failing cmd.Wait() is wrapped as "error running command: <cause>". -/

/-- Exit status of the subprocess as reported by cmd.Wait():
cmd.Wait() returns nil exactly for a normal exit with code zero. -/
inductive ExitStatus where
  | exited (code : Nat)
  | signaled (sig : Nat)
  deriving DecidableEq, Repr

/-- Message of the error returned by cmd.Wait(), none on a zero exit. -/
def waitErrMsg : ExitStatus → Option String
  | .exited 0 => none
  | .exited c => some ("exit status " ++ toString c)
  | .signaled s => some ("signal: " ++ toString s)

/-- Blocking milestones of one runJob call, in the order the code reaches
them: the process start, the return of wg.Wait() (both drains reported
completion), and the return of cmd.Wait(). -/
inductive ExecEv where
  | procStarted
  | drainsCompleted
  | procWaited
  deriving DecidableEq, Repr

/-- Abstract behaviour of one subprocess: whether obtaining each pipe and
starting fail, the content of both output streams, and the exit status. -/
structure ProcSpec where
  stdoutPipeErr : Option String
  stderrPipeErr : Option String
  startErr : Option String
  stdoutLines : List (String × Bool)
  stdoutTerm : GoError
  stderrLines : List (String × Bool)
  stderrTerm : GoError
  exit : ExitStatus
  deriving Repr

/-- Shallow embedding of runJob: the milestone trace, the drain logs, and
the returned error value. -/
def runJob (p : ProcSpec) : List ExecEv × List DrainLog × Except String Unit :=
  match p.stdoutPipeErr with
  | some e => ([], [], .error e)
  | none =>
  match p.stderrPipeErr with
  | some e => ([], [], .error e)
  | none =>
  match p.startErr with
  | some e => ([], [], .error e)
  | none =>
    let logs := startReaderDrain "stdout" p.stdoutLines p.stdoutTerm ++
      startReaderDrain "stderr" p.stderrLines p.stderrTerm
    let res : Except String Unit :=
      match waitErrMsg p.exit with
      | none => .ok ()
      | some m => .error ("error running command: " ++ m)
    ([.procStarted, .drainsCompleted, .procWaited], logs, res)

/-- A concrete subprocess behaviour: both pipes obtained, start succeeds,
one stdout line, both streams end in end-of-input, exit code 1. -/
def procSpecExample : ProcSpec :=
  ⟨none, none, none, [("hello", false)], ⟨"EOF", true⟩, [], ⟨"EOF", true⟩,
    .exited 1⟩

/-! ## Scheduler loop (StartJob, cron.go lines 128-192)

Each iteration of the goroutine's for-loop does, in order:

  nextRun = job.Expression.Next(nextRun)
  delay := nextRun.Sub(time.Now())
  if delay < 0 && !overlapping { warn; nextRun = time.Now(); continue }
  select { case <-exitChan: return; case <-time.After(delay): }
  run := func(iteration uint64) { ... runJob(context, job.Command, jobLogger) ... }
  err := func() error {
    ctx, cancel := context.WithCancel(context.Background())
    defer cancel()
    go monitorJob(ctx, job.Expression, nextRun, jobLogger)
    return runJob(cronCtx, job.Command, jobLogger)
  }()
  if overlapping { go run(cronIteration) } else { run(cronIteration) }
  cronIteration++

Two identifiers in the anonymous function are not bound anywhere in the
file: cronCtx (the executor argument at line 180; the in-scope context
value is the parameter named context) and jobLogger (lines 178 and 180;
a jobLogger is only declared inside run).  The file therefore does not
compile as Go.  The embedding keeps the structure literally: the executor
argument of the first call is tracked as the unresolved name cronCtx,
distinct from the context parameter that the second call passes.

The exit channel is modelled as never signalling during the modelled run;
shutdown delivery is modelled separately below. -/

/-- Which context variable a runJob call receives: the StartJob parameter
named context, or the unresolved identifier cronCtx of line 180. -/
inductive CtxVar where
  | contextParam
  | cronCtxVar
  deriving DecidableEq, Repr

/-- Observable events of the scheduler loop, tagged with discrete times. -/
inductive SchedEv where
  | warnTookTooLong (lateBy : Nat)
  | monitorStarted (t0 fireAt : Nat)
  | execCall (ctx : CtxVar) (startTime retTime : Nat) (detached : Bool)
  | monitorCancelled (time : Nat)
  deriving DecidableEq, Repr

/-- Mutable state of one scheduler goroutine between loop iterations. -/
structure SchedState where
  now : Nat
  nextRun : Nat
  cronIteration : Nat
  deriving DecidableEq, Repr

/-- One iteration of the StartJob for-loop.  d1 gives, per iteration
index, the duration of the monitored runJob call of the anonymous
function (line 180); d2 the duration of the runJob call inside run
(line 165).  Serial mode executes both synchronously; overlap mode
dispatches run on its own goroutine (detached), so the loop resumes at
the return of the first call. -/
def StartJobStep (next d1 d2 : Nat → Nat) (overlapping : Bool)
    (s : SchedState) : List SchedEv × SchedState :=
  let nr := next s.nextRun
  let delay : Int := (nr : Int) - (s.now : Int)
  if delay < 0 ∧ overlapping = false then
    ([.warnTookTooLong (s.now - nr)], ⟨s.now, s.now, s.cronIteration⟩)
  else
    let fireAt := max s.now nr
    let ret1 := fireAt + d1 s.cronIteration
    let ret2 := ret1 + d2 s.cronIteration
    let evs := [SchedEv.monitorStarted nr fireAt,
      SchedEv.execCall .cronCtxVar fireAt ret1 false,
      SchedEv.monitorCancelled ret1]
    if overlapping then
      (evs ++ [SchedEv.execCall .contextParam ret1 ret2 true],
        ⟨ret1, nr, s.cronIteration + 1⟩)
    else
      (evs ++ [SchedEv.execCall .contextParam ret1 ret2 false],
        ⟨ret2, nr, s.cronIteration + 1⟩)

/-- The StartJob loop run for a given number of iterations, collecting
events in order. -/
def StartJobLoop (next d1 d2 : Nat → Nat) (overlapping : Bool) :
    Nat → SchedState → List SchedEv × SchedState
  | 0, s => ([], s)
  | fuel + 1, s =>
    let step := StartJobStep next d1 d2 overlapping s
    let rest := StartJobLoop next d1 d2 overlapping fuel step.2
    (step.1 ++ rest.1, rest.2)

/-- The in-flight intervals of Executor invocations: for each runJob call
event, the pair of its start and return times. -/
def execIntervals (evs : List SchedEv) : List (Nat × Nat) :=
  evs.filterMap fun e =>
    match e with
    | .execCall _ st rt _ => some (st, rt)
    | _ => none

/-- The context argument of each runJob call, in call order. -/
def execCtxs (evs : List SchedEv) : List CtxVar :=
  evs.filterMap fun e =>
    match e with
    | .execCall c _ _ _ => some c
    | _ => none

/-- Number of Overrun Monitors started. -/
def monitorStartCount (evs : List SchedEv) : Nat :=
  evs.countP fun e =>
    match e with
    | .monitorStarted _ _ => true
    | _ => false

/-! ## Shutdown Coordinator (main.go lines 51-83)

main creates, per job, exitChan := make(chan interface 1), a single-slot
buffered channel, and on receipt of SIGINT or SIGTERM performs c <- true
on every exit channel.  A Go send on a buffered channel completes
immediately when the slot is free and otherwise blocks until the slot
frees; it is not dropped.  The scheduler loop receives from exitChan at
most once (in its select) and then returns, never reading again. -/

/-- State of one single-slot exit channel: the buffered value, if any. -/
abbrev ExitChan := Option Bool

/-- A Go send c <- v on a single-slot buffered channel, as far as it can
proceed without blocking: some of the new channel state when the send
completes immediately (slot free), none when the channel is full and the
sender must block until the slot frees. -/
def chanSendNow (c : ExitChan) (v : Bool) : Option ExitChan :=
  match c with
  | none => some (some v)
  | some _ => none

/-- Phase of one scheduler goroutine with respect to shutdown. -/
inductive LoopPhase where
  | waiting
  | stopped
  deriving DecidableEq, Repr

/-- Joint state of the stop deliveries still pending for one job, its
exit channel, and its scheduler loop. -/
structure ShutdownState where
  pendingSends : Nat
  chan : ExitChan
  loop : LoopPhase
  deriving DecidableEq, Repr

/-- One fair scheduling step of the shutdown interaction: a waiting loop
whose channel holds a signal consumes it and returns; otherwise a pending
blocking send completes into the free slot; a signal buffered after the
loop returned is never consumed again. -/
def shutdownStep (s : ShutdownState) : ShutdownState :=
  match s.chan, s.loop, s.pendingSends with
  | some _, .waiting, p => ⟨p, none, .stopped⟩
  | none, l, p + 1 => ⟨p, some true, l⟩
  | _, _, _ => s

/-- The shutdown interaction run for a given number of steps. -/
def shutdownRun : Nat → ShutdownState → ShutdownState
  | 0, s => s
  | n + 1, s => shutdownRun n (shutdownStep s)

/-! ## Helper lemmas -/

theorem monitorJob_eq_takeWhile (next : Nat → Nat) (t0 cancelAt fuel : Nat) :
    monitorJob next t0 cancelAt fuel =
      (schedPoints next t0 fuel).takeWhile (fun t => decide (t < cancelAt)) := by
  induction fuel generalizing t0 with
  | zero => rfl
  | succ n ih =>
    simp only [monitorJob, schedPoints, List.takeWhile_cons]
    by_cases h : next t0 < cancelAt
    · simp [h, ih]
    · simp [h]

theorem monitorJob_lt_cancel (next : Nat → Nat) (t0 cancelAt fuel : Nat) :
    ∀ w ∈ monitorJob next t0 cancelAt fuel, w < cancelAt := by
  induction fuel generalizing t0 with
  | zero => intro w hw; simp [monitorJob] at hw
  | succ n ih =>
    intro w hw
    simp only [monitorJob] at hw
    by_cases h : next t0 < cancelAt
    · rw [if_pos h] at hw
      rcases List.mem_cons.mp hw with rfl | hmem
      · exact h
      · exact ih (next t0) w hmem
    · rw [if_neg h] at hw
      exact absurd hw (List.not_mem_nil w)

theorem monitorJob_sorted (next : Nat → Nat) (hnext : ∀ t, t < next t)
    (t0 cancelAt fuel : Nat) :
    (monitorJob next t0 cancelAt fuel).Chain' (· < ·) := by
  induction fuel generalizing t0 with
  | zero => simp [monitorJob]
  | succ n ih =>
    simp only [monitorJob]
    by_cases h : next t0 < cancelAt
    · rw [if_pos h]
      refine List.chain'_cons'.mpr ⟨?_, ih (next t0)⟩
      intro y hy
      cases n with
      | zero => simp [monitorJob] at hy
      | succ m =>
        simp only [monitorJob] at hy
        by_cases h2 : next (next t0) < cancelAt
        · rw [if_pos h2] at hy
          simp only [List.head?_cons, Option.mem_some_iff] at hy
          subst hy
          exact hnext (next t0)
        · rw [if_neg h2] at hy
          exact absurd hy (by simp)
    · rw [if_neg h]; simp

theorem find?_key_of_nodup (l : List (String × String)) (k v : String)
    (hnd : (l.map Prod.fst).Nodup) (hmem : (k, v) ∈ l) :
    l.find? (fun q => q.1 == k) = some (k, v) := by
  induction l with
  | nil => exact absurd hmem (List.not_mem_nil _)
  | cons x t ih =>
    simp only [List.map_cons, List.nodup_cons] at hnd
    by_cases hk : x.1 = k
    · rw [List.find?_cons_of_pos _ (by simpa using hk)]
      rcases List.mem_cons.mp hmem with rfl | hmt
      · rfl
      · exact absurd (List.mem_map.mpr ⟨(k, v), hmt, rfl⟩) (hk ▸ hnd.1)
    · rw [List.find?_cons_of_neg _ (by simpa using hk)]
      rcases List.mem_cons.mp hmem with rfl | hmt
      · exact absurd rfl hk
      · exact ih hnd.2 hmt

theorem observedEnv_merge_mem (p o : List (String × String)) (k v : String)
    (hnd : (o.map Prod.fst).Nodup) (hmem : (k, v) ∈ o) :
    observedEnv (mergeEnviron p o) k = some v := by
  unfold observedEnv mergeEnviron
  rw [List.reverse_append, List.find?_append,
    find?_key_of_nodup o.reverse k v
      (by rw [List.map_reverse]; exact List.nodup_reverse.mpr hnd)
      (List.mem_reverse.mpr hmem)]
  rfl

theorem observedEnv_merge_not_mem (p o : List (String × String)) (k : String)
    (hk : k ∉ o.map Prod.fst) :
    observedEnv (mergeEnviron p o) k = observedEnv p k := by
  unfold observedEnv mergeEnviron
  rw [List.reverse_append, List.find?_append]
  have hnone : o.reverse.find? (fun q => q.1 == k) = none := by
    rw [List.find?_eq_none]
    intro x hx hbeq
    exact hk (List.mem_map.mpr ⟨x, List.mem_reverse.mp hx, by simpa using hbeq⟩)
  rw [hnone, Option.none_or]

theorem startReaderDrain_error_count (channel : String)
    (lines : List (String × Bool)) (term : GoError) :
    (startReaderDrain channel lines term).countP DrainLog.isReadError =
      if strContains term.msg osErrClosedMsg || term.isEOFSentinel then 0
      else 1 := by
  induction lines with
  | nil =>
    by_cases h1 : strContains term.msg osErrClosedMsg
    · simp [startReaderDrain, h1]
    · by_cases h2 : term.isEOFSentinel
      · simp [startReaderDrain, h1, h2]
      · simp [startReaderDrain, h1, h2, List.countP_cons, DrainLog.isReadError]
  | cons hd tl ih =>
    obtain ⟨l, continued⟩ := hd
    by_cases hc : continued
    · simp [startReaderDrain, hc, List.countP_cons, List.countP_append,
        DrainLog.isReadError, ih]
    · simp [startReaderDrain, hc, List.countP_cons, DrainLog.isReadError, ih]

theorem runJob_drains_before_wait (p : ProcSpec)
    (h1 : p.stdoutPipeErr = none) (h2 : p.stderrPipeErr = none)
    (h3 : p.startErr = none) :
    (runJob p).1.indexOf ExecEv.drainsCompleted <
      (runJob p).1.indexOf ExecEv.procWaited := by
  simp only [runJob, h1, h2, h3]
  decide

theorem runJob_ok_iff (p : ProcSpec)
    (h1 : p.stdoutPipeErr = none) (h2 : p.stderrPipeErr = none)
    (h3 : p.startErr = none) :
    ((runJob p).2.2 = .ok () ↔ p.exit = .exited 0) ∧
      (p.exit ≠ .exited 0 →
        ∃ m, (runJob p).2.2 = .error ("error running command: " ++ m)) := by
  simp only [runJob, h1, h2, h3]
  rcases p.exit with c | s
  · cases c with
    | zero => simp [waitErrMsg]
    | succ n => simp [waitErrMsg]
  · simp [waitErrMsg]

theorem StartJobStep_serial_skip (next d1 d2 : Nat → Nat) (s : SchedState)
    (h : next s.nextRun < s.now) :
    StartJobStep next d1 d2 false s =
      ([SchedEv.warnTookTooLong (s.now - next s.nextRun)],
        ⟨s.now, s.now, s.cronIteration⟩) := by
  unfold StartJobStep
  rw [if_pos]
  exact ⟨sub_neg.mpr (by exact_mod_cast h :
    ((next s.nextRun : Int)) < (s.now : Int)), rfl⟩

theorem StartJobStep_serial_fire (next d1 d2 : Nat → Nat) (s : SchedState)
    (h : ¬ next s.nextRun < s.now) :
    StartJobStep next d1 d2 false s =
      ([SchedEv.monitorStarted (next s.nextRun) (next s.nextRun),
        SchedEv.execCall .cronCtxVar (next s.nextRun)
          (next s.nextRun + d1 s.cronIteration) false,
        SchedEv.monitorCancelled (next s.nextRun + d1 s.cronIteration),
        SchedEv.execCall .contextParam
          (next s.nextRun + d1 s.cronIteration)
          (next s.nextRun + d1 s.cronIteration + d2 s.cronIteration) false],
        ⟨next s.nextRun + d1 s.cronIteration + d2 s.cronIteration,
          next s.nextRun, s.cronIteration + 1⟩) := by
  have hle : s.now ≤ next s.nextRun := Nat.le_of_not_lt h
  unfold StartJobStep
  rw [if_neg, if_neg (by simp)]
  · simp [Nat.max_eq_right hle]
  · rintro ⟨hlt, -⟩
    exact h (by exact_mod_cast sub_neg.mp hlt)

/-- Invariant of the serial-policy loop: the clock never goes backward,
every executor interval is well-formed, starts no earlier than the entry
clock and ends no later than the exit clock, and the intervals are
pairwise ordered end-before-start. -/
theorem StartJobLoop_serial_invariant (next d1 d2 : Nat → Nat) :
    ∀ fuel s,
      s.now ≤ ((StartJobLoop next d1 d2 false fuel s).2).now ∧
      (∀ iv ∈ execIntervals (StartJobLoop next d1 d2 false fuel s).1,
        s.now ≤ iv.1 ∧ iv.1 ≤ iv.2 ∧
          iv.2 ≤ ((StartJobLoop next d1 d2 false fuel s).2).now) ∧
      (execIntervals (StartJobLoop next d1 d2 false fuel s).1).Pairwise
        (fun a b => a.2 ≤ b.1) := by
  intro fuel
  induction fuel with
  | zero =>
    intro s
    refine ⟨le_refl _, ?_, ?_⟩
    · intro iv hiv; simp [StartJobLoop, execIntervals] at hiv
    · simp [StartJobLoop, execIntervals]
  | succ f ih =>
    intro s
    by_cases h : next s.nextRun < s.now
    · have hstep := StartJobStep_serial_skip next d1 d2 s h
      have hrec := ih ⟨s.now, s.now, s.cronIteration⟩
      simp only [StartJobLoop, hstep, execIntervals, List.filterMap_append,
        List.filterMap_cons, List.filterMap_nil, List.nil_append]
      simp only [execIntervals] at hrec
      exact hrec
    · have hstep := StartJobStep_serial_fire next d1 d2 s h
      have hle : s.now ≤ next s.nextRun := Nat.le_of_not_lt h
      have hrec := ih ⟨next s.nextRun + d1 s.cronIteration + d2 s.cronIteration,
        next s.nextRun, s.cronIteration + 1⟩
      simp only [execIntervals] at hrec
      obtain ⟨hnow, hbound, hpair⟩ := hrec
      simp only [StartJobLoop, hstep, execIntervals, List.filterMap_append,
        List.filterMap_cons, List.filterMap_nil, List.nil_append]
      refine ⟨by omega, ?_, ?_⟩
      · intro iv hiv
        rcases List.mem_cons.mp hiv with rfl | hiv2
        · refine ⟨hle, by omega, by omega⟩
        rcases List.mem_cons.mp hiv2 with rfl | hiv3
        · refine ⟨by omega, by omega, by omega⟩
        obtain ⟨hb1, hb2, hb3⟩ := hbound iv hiv3
        exact ⟨by omega, hb2, hb3⟩
      · rw [List.pairwise_append]
        refine ⟨?_, hpair, ?_⟩
        · refine List.pairwise_cons.mpr ⟨?_, List.pairwise_singleton _ _⟩
          intro b hb
          rcases List.mem_cons.mp hb with rfl | hb2
          · exact le_refl _
          · exact absurd hb2 (List.not_mem_nil _)
        · intro a ha b hb
          have hbl := (hbound b hb).1
          rcases List.mem_cons.mp ha with rfl | ha2
          · show next s.nextRun + d1 s.cronIteration ≤ b.1
            omega
          rcases List.mem_cons.mp ha2 with rfl | ha3
          · show next s.nextRun + d1 s.cronIteration + d2 s.cronIteration ≤ b.1
            omega
          · exact absurd ha3 (List.not_mem_nil _)

/-! ## Claims -/

/-- C1: with overlap disabled, every Executor invocation interval produced
by the scheduler loop is well-formed and the intervals are pairwise
ordered end-before-start: at most one invocation is in flight at any
instant, and invocation k never starts before invocation k-1 has returned
(the loop blocks on the Executor before returning to waiting). -/
theorem StartJob_serial_mutual_exclusion (next d1 d2 : Nat → Nat)
    (fuel : Nat) (s : SchedState) :
    (∀ iv ∈ execIntervals (StartJobLoop next d1 d2 false fuel s).1,
      iv.1 ≤ iv.2) ∧
    (execIntervals (StartJobLoop next d1 d2 false fuel s).1).Pairwise
      (fun a b => a.2 ≤ b.1) := by
  obtain ⟨-, hb, hp⟩ := StartJobLoop_serial_invariant next d1 d2 fuel s
  exact ⟨fun iv hiv => (hb iv hiv).2.1, hp⟩

/-- C1 witness: the mutual-exclusion property at a concrete schedule,
durations, fuel and initial state. -/
theorem StartJob_serial_mutual_exclusion_witness :
    (∀ iv ∈ execIntervals
        (StartJobLoop (fun t => t + 1) (fun _ => 5) (fun _ => 3) false 4
          ⟨0, 0, 0⟩).1, iv.1 ≤ iv.2) ∧
    (execIntervals
        (StartJobLoop (fun t => t + 1) (fun _ => 5) (fun _ => 3) false 4
          ⟨0, 0, 0⟩).1).Pairwise (fun a b => a.2 ≤ b.1) :=
  StartJob_serial_mutual_exclusion (fun t => t + 1) (fun _ => 5) (fun _ => 3)
    4 ⟨0, 0, 0⟩

/-- C2: evaluating one firing of the scheduler loop at the initial state
shows that the loop starts exactly one Overrun Monitor but calls the Job
Executor twice, the first call passing the unresolved identifier cronCtx
rather than the context parameter supplied to StartJob: the claim that
the Executor is called exactly once with the passed ExecutionContext does
not hold of the code as written. -/
theorem StartJob_fire_double_executor_call :
    execCtxs (StartJobStep (fun t => t + 1) (fun _ => 1) (fun _ => 1) false
        ⟨0, 0, 0⟩).1 = [CtxVar.cronCtxVar, CtxVar.contextParam] ∧
    monitorStartCount (StartJobStep (fun t => t + 1) (fun _ => 1) (fun _ => 1)
        false ⟨0, 0, 0⟩).1 = 1 ∧
    (execIntervals (StartJobStep (fun t => t + 1) (fun _ => 1) (fun _ => 1)
        false ⟨0, 0, 0⟩).1).length = 2 := by
  decide

/-- C3: the Overrun Monitor of an invocation is cancelled exactly when
that invocation's Executor call returns, whatever the Executor's outcome
(the deferred cancel runs on every return path), and every warning the
monitor emits is strictly before the cancellation time: after
cancellation the monitor stops with no further warnings. -/
theorem monitor_cancelled_at_executor_return (next : Nat → Nat)
    (t0 startAt dur fuel : Nat) (result : Except String Unit) :
    (runWithMonitor next t0 startAt dur fuel result).2.1 = startAt + dur ∧
    (runWithMonitor next t0 startAt dur fuel result).2.2 = result ∧
    (∀ w ∈ (runWithMonitor next t0 startAt dur fuel result).1,
      w < startAt + dur) :=
  ⟨rfl, rfl, monitorJob_lt_cancel next t0 (startAt + dur) fuel⟩

/-- C3 witness: cancellation at the executor return for a failing
executor outcome, at concrete inputs. -/
theorem monitor_cancelled_at_executor_return_witness :
    (runWithMonitor (fun t => t + 2) 0 0 5 10 (.error "boom")).2.1 = 0 + 5 ∧
    (runWithMonitor (fun t => t + 2) 0 0 5 10 (.error "boom")).2.2 =
      .error "boom" ∧
    (∀ w ∈ (runWithMonitor (fun t => t + 2) 0 0 5 10 (.error "boom")).1,
      w < 0 + 5) :=
  monitor_cancelled_at_executor_return (fun t => t + 2) 0 0 5 10
    (.error "boom")

/-- C4: the subprocess environment equals the supervisor's inherited
environment with every override applied afterward: any key of the
override mapping is observed at its override value, any other key at its
inherited value; in particular VAR=foo overridden by VAR=bar is observed
as bar. -/
theorem subprocess_env_override_wins :
    (∀ (p o : List (String × String)) (k v : String),
      (o.map Prod.fst).Nodup → (k, v) ∈ o →
        observedEnv (mergeEnviron p o) k = some v) ∧
    (∀ (p o : List (String × String)) (k : String),
      k ∉ o.map Prod.fst →
        observedEnv (mergeEnviron p o) k = observedEnv p k) ∧
    observedEnv (mergeEnviron [("VAR", "foo")] [("VAR", "bar")]) "VAR" =
      some "bar" :=
  ⟨observedEnv_merge_mem, observedEnv_merge_not_mem, by decide⟩

/-- C4 witness: the override and pass-through cases at concrete
environments. -/
theorem subprocess_env_override_wins_witness :
    observedEnv (mergeEnviron [("VAR", "foo")] [("VAR", "bar")]) "VAR" =
      some "bar" ∧
    observedEnv (mergeEnviron [("HOME", "/root")] [("VAR", "bar")]) "HOME" =
      observedEnv [("HOME", "/root")] "HOME" :=
  ⟨subprocess_env_override_wins.1 [("VAR", "foo")] [("VAR", "bar")] "VAR"
      "bar" (by decide) (by decide),
    subprocess_env_override_wins.2.1 [("HOME", "/root")] [("VAR", "bar")]
      "HOME" (by decide)⟩

/-- C5: with overlap disabled and a negative computed delay, one loop
iteration logs the took-too-long warning, resets the schedule reference
nextRun to the current time without advancing the clock (no waiting), and
starts no invocation and no monitor for the missed fire. -/
theorem serial_negative_delay_skip_and_resync (next d1 d2 : Nat → Nat)
    (s : SchedState) (h : next s.nextRun < s.now) :
    (StartJobStep next d1 d2 false s).1 =
      [SchedEv.warnTookTooLong (s.now - next s.nextRun)] ∧
    (StartJobStep next d1 d2 false s).2 = ⟨s.now, s.now, s.cronIteration⟩ ∧
    execIntervals (StartJobStep next d1 d2 false s).1 = [] ∧
    monitorStartCount (StartJobStep next d1 d2 false s).1 = 0 := by
  rw [StartJobStep_serial_skip next d1 d2 s h]
  exact ⟨rfl, rfl, rfl, rfl⟩

/-- C5 witness: the skip-and-resync behaviour at a concrete late state. -/
theorem serial_negative_delay_skip_and_resync_witness :
    (StartJobStep (fun _ => 0) (fun _ => 1) (fun _ => 2) false ⟨5, 3, 7⟩).1 =
      [SchedEv.warnTookTooLong (5 - (fun _ : Nat => 0) 3)] ∧
    (StartJobStep (fun _ => 0) (fun _ => 1) (fun _ => 2) false ⟨5, 3, 7⟩).2 =
      ⟨5, 5, 7⟩ ∧
    execIntervals
      (StartJobStep (fun _ => 0) (fun _ => 1) (fun _ => 2) false
        ⟨5, 3, 7⟩).1 = [] ∧
    monitorStartCount
      (StartJobStep (fun _ => 0) (fun _ => 1) (fun _ => 2) false
        ⟨5, 3, 7⟩).1 = 0 :=
  serial_negative_delay_skip_and_resync (fun _ => 0) (fun _ => 1)
    (fun _ => 2) ⟨5, 3, 7⟩ (by decide)

/-- C6 counterexample: on the single-slot exit channel a second send
performed while the first value is still unconsumed does not complete as
a no-op: it blocks (chanSendNow returns none) instead of completing with
the channel unchanged. -/
theorem exit_chan_second_send_not_noop :
    chanSendNow (some true) true = none ∧
    chanSendNow (some true) true ≠ some (some true) := by
  decide

/-- C6 amended: the first stop send on the empty single-slot channel
completes without blocking; a second send while the first is unconsumed
blocks until the slot frees rather than being dropped; and delivering the
stop signal twice has the same observable effect on the job as delivering
it once: the scheduler loop reaches the stopped phase either way, the
extra signal being merely buffered and never consumed. -/
theorem exit_chan_stop_idempotent_effect :
    chanSendNow none true = some (some true) ∧
    (shutdownRun 4 ⟨1, none, .waiting⟩).loop = LoopPhase.stopped ∧
    (shutdownRun 4 ⟨2, none, .waiting⟩).loop = LoopPhase.stopped ∧
    (shutdownRun 4 ⟨2, none, .waiting⟩).loop =
      (shutdownRun 4 ⟨1, none, .waiting⟩).loop := by
  decide

/-- C7: when both pipes are obtained and the process starts, runJob
reaches the completion of both Output Drains strictly before the return
of the process wait; the call returns success exactly when the process
exits normally with code zero, and any non-zero exit or signal
termination yields a wrapped error. -/
theorem runJob_drains_then_wait_result (p : ProcSpec)
    (h1 : p.stdoutPipeErr = none) (h2 : p.stderrPipeErr = none)
    (h3 : p.startErr = none) :
    ((runJob p).1.indexOf ExecEv.drainsCompleted <
      (runJob p).1.indexOf ExecEv.procWaited) ∧
    ((runJob p).2.2 = .ok () ↔ p.exit = .exited 0) ∧
    (p.exit ≠ .exited 0 →
      ∃ m, (runJob p).2.2 = .error ("error running command: " ++ m)) :=
  ⟨runJob_drains_before_wait p h1 h2 h3, (runJob_ok_iff p h1 h2 h3).1,
    (runJob_ok_iff p h1 h2 h3).2⟩

/-- C7 witness: the executor contract at a concrete failing subprocess. -/
theorem runJob_drains_then_wait_result_witness :
    ((runJob procSpecExample).1.indexOf ExecEv.drainsCompleted <
      (runJob procSpecExample).1.indexOf ExecEv.procWaited) ∧
    ((runJob procSpecExample).2.2 = .ok () ↔
      procSpecExample.exit = .exited 0) ∧
    (procSpecExample.exit ≠ .exited 0 →
      ∃ m, (runJob procSpecExample).2.2 =
        .error ("error running command: " ++ m)) :=
  runJob_drains_then_wait_result procSpecExample rfl rfl rfl

/-- C8: the drain classifies terminal read errors: a stream-already-closed
error or the end-of-input sentinel produce no error record, while any
other read error produces exactly one error record; the read loop
terminates in every case, its output being a finite record list. -/
theorem drain_read_error_classification :
    (∀ (channel : String) (lines : List (String × Bool)) (term : GoError),
      (startReaderDrain channel lines term).countP DrainLog.isReadError =
        if strContains term.msg osErrClosedMsg || term.isEOFSentinel then 0
        else 1) ∧
    startReaderDrain "stdout" [] ⟨"read |0: file already closed", false⟩ =
      [] ∧
    startReaderDrain "stdout" [] ⟨"EOF", true⟩ = [] ∧
    startReaderDrain "stderr" [] ⟨"input/output error", false⟩ =
      [DrainLog.readError "stderr" "input/output error"] :=
  ⟨startReaderDrain_error_count, by decide, by decide, by decide⟩

/-- C9: while an invocation runs, the monitor warns exactly once per
missed schedule point, iterating the schedule strictly forward: the
warning list equals the consecutive schedule points before the
cancellation, it is strictly increasing when the schedule engine is, and
in the 1-unit-schedule, 3-unit-sleep scenario exactly two warnings are
emitted. -/
theorem monitor_one_warning_per_missed_point :
    (∀ (next : Nat → Nat) (t0 c fuel : Nat),
      monitorJob next t0 c fuel =
        (schedPoints next t0 fuel).takeWhile (fun t => decide (t < c))) ∧
    (∀ next : Nat → Nat, (∀ t, t < next t) → ∀ (t0 c fuel : Nat),
      (monitorJob next t0 c fuel).Chain' (· < ·)) ∧
    monitorJob (fun t => t + 1) 1 4 100 = [2, 3] ∧
    (monitorJob (fun t => t + 1) 1 4 100).length = 2 :=
  ⟨monitorJob_eq_takeWhile,
    fun next h t0 c fuel => monitorJob_sorted next h t0 c fuel,
    by decide, by decide⟩

/-- C9 witness: strictly increasing warning times at a concrete strictly
increasing schedule. -/
theorem monitor_one_warning_per_missed_point_witness :
    (monitorJob (fun t => t + 1) 0 5 20).Chain' (· < ·) :=
  monitor_one_warning_per_missed_point.2.1 (fun t => t + 1)
    (fun t => Nat.lt_succ_self t) 0 5 20

/-- C10: with overlap enabled and a negative computed delay the loop
neither warns nor resyncs: the wait on the negative delay elapses
immediately, the monitor and the monitored executor call start at the
current instant, the run dispatch is detached, and nextRun is not
reset. -/
theorem overlapping_negative_delay_fires_immediately (next d1 d2 : Nat → Nat)
    (s : SchedState) (h : next s.nextRun < s.now) :
    (StartJobStep next d1 d2 true s).1 =
      [SchedEv.monitorStarted (next s.nextRun) s.now,
        SchedEv.execCall .cronCtxVar s.now (s.now + d1 s.cronIteration) false,
        SchedEv.monitorCancelled (s.now + d1 s.cronIteration),
        SchedEv.execCall .contextParam (s.now + d1 s.cronIteration)
          (s.now + d1 s.cronIteration + d2 s.cronIteration) true] ∧
    (StartJobStep next d1 d2 true s).2 =
      ⟨s.now + d1 s.cronIteration, next s.nextRun, s.cronIteration + 1⟩ ∧
    (∀ n, SchedEv.warnTookTooLong n ∉ (StartJobStep next d1 d2 true s).1) := by
  have hstep : StartJobStep next d1 d2 true s =
      ([SchedEv.monitorStarted (next s.nextRun) s.now,
        SchedEv.execCall .cronCtxVar s.now (s.now + d1 s.cronIteration) false,
        SchedEv.monitorCancelled (s.now + d1 s.cronIteration),
        SchedEv.execCall .contextParam (s.now + d1 s.cronIteration)
          (s.now + d1 s.cronIteration + d2 s.cronIteration) true],
        ⟨s.now + d1 s.cronIteration, next s.nextRun, s.cronIteration + 1⟩) := by
    unfold StartJobStep
    rw [if_neg (fun hc => Bool.noConfusion hc.2), if_pos rfl]
    simp [Nat.max_eq_left (Nat.le_of_lt h)]
  refine ⟨by rw [hstep], by rw [hstep], ?_⟩
  intro n hmem
  rw [hstep] at hmem
  simp at hmem

/-- C10 witness: the immediate firing at a concrete late state with
overlap enabled. -/
theorem overlapping_negative_delay_fires_immediately_witness :
    (StartJobStep (fun _ => 0) (fun _ => 2) (fun _ => 4) true ⟨5, 3, 7⟩).1 =
      [SchedEv.monitorStarted ((fun _ : Nat => 0) 3) 5,
        SchedEv.execCall .cronCtxVar 5 (5 + (fun _ : Nat => 2) 7) false,
        SchedEv.monitorCancelled (5 + (fun _ : Nat => 2) 7),
        SchedEv.execCall .contextParam (5 + (fun _ : Nat => 2) 7)
          (5 + (fun _ : Nat => 2) 7 + (fun _ : Nat => 4) 7) true] ∧
    (StartJobStep (fun _ => 0) (fun _ => 2) (fun _ => 4) true ⟨5, 3, 7⟩).2 =
      ⟨5 + (fun _ : Nat => 2) 7, (fun _ : Nat => 0) 3, 7 + 1⟩ ∧
    (∀ n, SchedEv.warnTookTooLong n ∉
      (StartJobStep (fun _ => 0) (fun _ => 2) (fun _ => 4) true
        ⟨5, 3, 7⟩).1) :=
  overlapping_negative_delay_fires_immediately (fun _ => 0) (fun _ => 2)
    (fun _ => 4) ⟨5, 3, 7⟩ (by decide)

end Cronic
